import Mathlib

/-!
Shallow embedding of the rehydration engine of `nova/db/discovery`:

* `nova/db/discovery/desimplifier.py` (class `ObjectDesimplifier`), and
* `nova/db/discovery/lazy_reference.py` (class `LazyReference`).

Python values fetched from the store are modelled by `SValue`; rehydrated
values by `RValue`.  Python object identity is modelled explicitly: domain
objects live in a heap (`Engine.heap`), and a reconstructed object is the
`RValue.rmodel ref` pointing at its heap cell; two results are "the same
instance" exactly when their heap references are equal.  Python dictionary
identity (`id(obj)`) is modelled by the `addr` component of `SValue.vdict`.

External collaborators that are not part of the two source files (the model
registry in `models.py`, and the riak store client) are parameters of the
embedding, collected in `Env`; see their doc comments.

Exceptions are modelled by `PyErr`; a raised exception propagates carrying
the mutated state, as in Python.  All recursive functions are fuel-indexed
(`PRes.fuel` means "fuel exhausted", an artifact of the embedding, never
produced by any terminating run given enough fuel).
-/

/-- A simplified (wire-format) value: Python `None`, strings, numbers,
booleans, lists, and dicts with string keys.  `addr` models `id(obj)` of the
dict object, so that two structurally equal dicts at different addresses can
be told apart, as in Python. -/
inductive SValue where
  | vnull
  | vstr (s : String)
  | vint (n : Int)
  | vbool (b : Bool)
  | vlist (xs : List SValue)
  | vdict (addr : Nat) (fields : List (String × SValue))

/-- A rehydrated value.  `raw v` is a value returned unchanged by
`desimplify` (scalars and untagged containers); `rmodel ref` is a domain
object, identified by its heap reference.  `raw SValue.vnull` is Python
`None`. -/
inductive RValue where
  | raw (v : SValue)
  | rlist (xs : List RValue)
  | rdatetime (value : String) (utc : Bool)
  | ripnetwork (cidr : String)
  | rmodel (ref : Nat)

/-- Python exceptions that the embedded code can raise. -/
inductive PyErr where
  | keyError (k : String)
  | typeError (msg : String)
  | attributeError (msg : String)
  | unboundLocal (name : String)
  | nameError (name : String)
  | exn (msg : String)

/-- The message text of an exception, as tested by
`"None is not list-like" in str(e)` in the source. -/
def errToStr : PyErr → String
  | .keyError k => "KeyError: " ++ k
  | .typeError m => m
  | .attributeError m => m
  | .unboundLocal n => "local variable " ++ n ++ " referenced before assignment"
  | .nameError n => "name " ++ n ++ " is not defined"
  | .exn m => m

/-- A domain-object instance: its model class name, the attributes assigned
so far, and the number of times `update_foreign_keys` has been invoked on
it (the relationship-fixup hook is modelled as a counter). -/
structure NovaObject where
  klass : String
  attrs : List (String × RValue)
  fkCount : Nat

/-- The mutable state of one `ObjectDesimplifier`: its identity cache
`self.cache` (a cached value can be Python `None`, hence `Option Nat`), the
heap of domain objects created so far, and the number of store fetches
performed. -/
structure Engine where
  cache : List (String × Option Nat)
  heap : List NovaObject
  fetchCount : Nat

/-- A model class, as obtained from the registry.  `setResult k v` tells
whether `setattr(instance, k, v)` raises (`some msg`, with the exception
message) or succeeds (`none`).  Modelled from the spec: the domain-model
classes live in `models.py` / sqlalchemy, outside the two source files;
the spec requires settable-by-name fields whose assignment can fail, the
recognised failure being the "None is not list-like" message of sequence
fields given `None`. -/
structure ModelClass where
  name : String
  setResult : String → RValue → Option String
  hasUserId : Bool
  hasProjectId : Bool

/-- External collaborators.
`registry` — Modelled from the spec: `models.get_model_class_from_name`,
absent from `src/`; per the spec it maps a classname to a constructible
type and returns a failure sentinel (here `none`) when unknown.
`tableToClass` — Modelled from the spec:
`models.get_model_classname_from_tablename`, absent from `src/`; maps a
collection (table) name to a classname, sentinel when unknown.
`store` — the riak key-value store client: `bucket(b).get(k).data`;
`none` models a missing record, whose `.data` is Python `None`. -/
structure Env where
  registry : String → Option ModelClass
  tableToClass : String → Option String
  store : String → String → Option SValue

/-- Outcome of running a stateful embedded function: normal return,
raised exception (both carry the state as mutated so far), or fuel
exhaustion (an embedding artifact). -/
inductive PRes (σ : Type) (α : Type) where
  | ok (a : α) (s : σ)
  | err (e : PyErr) (s : σ)
  | fuel

/-- Association-list lookup with string keys (Python dict read). -/
def lookupStr {α : Type} : List (String × α) → String → Option α
  | [], _ => none
  | (k1, v) :: rest, k => if k1 == k then some v else lookupStr rest k

/-- Association-list update (Python dict write: overwrite or append). -/
def setEntry {α : Type} : List (String × α) → String → α → List (String × α)
  | [], k, v => [(k, v)]
  | (k1, v1) :: rest, k, v =>
    if k1 == k then (k1, v) :: rest else (k1, v1) :: setEntry rest k v

/-- Substring test on character lists, modelling Python `sub in s`. -/
def hasSubstr (needle : List Char) : List Char → Bool
  | [] => needle.isEmpty
  | c :: rest => needle.isPrefixOf (c :: rest) || hasSubstr needle rest

/-- The exception-message fragment recognised by the assignment-failure
handler in `update_nova_model`. -/
def listLikeMsg : String := "None is not list-like"

/-- Python `str()` of a scalar value; compound values are given an opaque
rendering (no claim depends on the `str()` of a list or dict). -/
def pyStr : SValue → String
  | .vnull => "None"
  | .vstr s => s
  | .vint n => toString n
  | .vbool true => "True"
  | .vbool false => "False"
  | .vlist _ => "[list]"
  | .vdict a _ => "dict-" ++ toString a

/-- Python `hex(n)`. -/
def hexStr (n : Nat) : String := "0x" ++ (Nat.toDigits 16 n).asString

/-- Python `id(obj)` (only ever used on dicts by the source; non-dict
values are not claim-relevant and get address 0). -/
def pyAddr : SValue → Nat
  | .vdict a _ => a
  | _ => 0

/-- Dict field read, `obj[k]` on a dict; `none` when `obj` is not a dict or
the key is absent. -/
def svGet : SValue → String → Option SValue
  | .vdict _ fs, k => lookupStr fs k
  | _, _ => none

/-- `ObjectDesimplifier.is_dict_and_has_key`: `isinstance(obj, dict) and
obj.has_key(key)`. -/
def is_dict_and_has_key (obj : SValue) (k : String) : Bool :=
  match obj with
  | .vdict _ fs => (lookupStr fs k).isSome
  | _ => false

/-- Python membership `k in obj`: dict key test; `TypeError` on
non-iterable values such as `None`; substring test on strings; `==`
membership on lists. -/
def svContains (obj : SValue) (k : String) : Except PyErr Bool :=
  match obj with
  | .vdict _ fs => .ok (lookupStr fs k).isSome
  | .vnull => .error (.typeError "argument of type NoneType is not iterable")
  | .vstr s => .ok (hasSubstr k.toList s.toList)
  | .vlist xs => .ok (xs.any (fun x => match x with | .vstr s => s == k | _ => false))
  | _ => .error (.typeError "argument is not iterable")

/-- `ObjectDesimplifier.get_key`: `tablename + "-" + str(obj["id"])` when
the dict carries a `tablename` key, otherwise a key built from the memory
address of `obj` (`hex(id(obj))` twice). -/
def get_key (obj : SValue) : Except PyErr String :=
  if is_dict_and_has_key obj "tablename" then
    match svGet obj "tablename" with
    | none => .error (.keyError "tablename")
    | some tn =>
      match svGet obj "id" with
      | none => .error (.keyError "id")
      | some idv => .ok (pyStr tn ++ "-" ++ pyStr idv)
  else .ok (hexStr (pyAddr obj) ++ "-" ++ hexStr (pyAddr obj))

/-- The cached value for a key, as returned to Python code: a heap
reference, or `None` when the cache maps the key to `None`. -/
def renderCached : Option Nat → RValue
  | some r => .rmodel r
  | none => .raw .vnull

/-- `get_model_class_from_name(model_class_name)` applied to an arbitrary
value: only string names can resolve; unknown names give the registry
sentinel `none`. -/
def classFromName (env : Env) : SValue → Option ModelClass
  | .vstr n => env.registry n
  | _ => none

/-- The setattr behavior of an object's class (objects are only created
from registered classes; an unregistered class name never raises). -/
def classSetResult (env : Env) (klass k : String) (v : RValue) : Option String :=
  match env.registry klass with
  | some cls => cls.setResult k v
  | none => none

/-- `setattr(current_model, k, v)` where `current_model` may be Python
`None` (`mref? = none`): raises `AttributeError` on `None`, otherwise
consults the class's assignment behavior; on success the attribute is
stored.  The state is unchanged when an exception is raised. -/
def modelSetattr (env : Env) (s : Engine) (mref? : Option Nat) (k : String) (v : RValue) :
    Except PyErr Engine :=
  match mref? with
  | none => .error (.attributeError ("NoneType object has no attribute " ++ k))
  | some r =>
    match s.heap.get? r with
    | none => .error (.attributeError "invalid reference")
    | some o =>
      match classSetResult env o.klass k v with
      | some msg => .error (.exn msg)
      | none => .ok { s with heap := s.heap.set r { o with attrs := setEntry o.attrs k v } }

/-- `hasattr(current_model, name)` for `name` among the ownership fields:
false on Python `None`; otherwise a class-level attribute or an
already-assigned instance attribute. -/
def modelHasAttr (env : Env) (s : Engine) (mref? : Option Nat) (name : String) : Bool :=
  match mref? with
  | none => false
  | some r =>
    match s.heap.get? r with
    | none => false
    | some o =>
      (match env.registry o.klass with
       | some cls =>
         if name == "user_id" then cls.hasUserId
         else if name == "project_id" then cls.hasProjectId
         else false
       | none => false) || (lookupStr o.attrs name).isSome

/-- `update_foreign_keys()` on a heap object: bump its invocation count. -/
def bumpFk (s : Engine) (r : Nat) : Engine :=
  match s.heap.get? r with
  | some o => { s with heap := s.heap.set r { o with fkCount := o.fkCount + 1 } }
  | none => s

/-- `current_model.update_foreign_keys()`: `AttributeError` when
`current_model` is Python `None`. -/
def callFk (s : Engine) (mref? : Option Nat) : Except PyErr Engine :=
  match mref? with
  | none => .error (.attributeError "NoneType object has no attribute update_foreign_keys")
  | some r => .ok (bumpFk s r)

/-- `ObjectDesimplifier.datetime_desimplify`: reads `value["value"]` and
`value["timezone"]`.  The stdlib `strptime` parse is modelled as keeping
the raw timestamp string (format validity is outside the two source
files and no claim depends on it); the `timezone == "UTC"` comparison
selects UTC localization. -/
def datetime_desimplify (value : SValue) : Except PyErr RValue :=
  match svGet value "value" with
  | none => .error (.keyError "value")
  | some (.vstr ts) =>
    match svGet value "timezone" with
    | none => .error (.keyError "timezone")
    | some tz => .ok (.rdatetime ts (match tz with | .vstr "UTC" => true | _ => false))
  | some _ => .error (.typeError "strptime argument must be a string")

/-- `ObjectDesimplifier.ipnetwork_desimplify`: `netaddr.IPNetwork(value["value"])`,
modelled as keeping the CIDR string. -/
def ipnetwork_desimplify (value : SValue) : Except PyErr RValue :=
  match svGet value "value" with
  | none => .error (.keyError "value")
  | some (.vstr cidr) => .ok (.ripnetwork cidr)
  | some _ => .error (.typeError "IPNetwork argument must be a string")

/-- Lift a pure, stateless result into a stateful one. -/
def liftE (r : Except PyErr RValue) (s : Engine) : PRes Engine RValue :=
  match r with
  | .ok v => .ok v s
  | .error e => .err e s

/-- Helper for `spawn_empty_model` once the classname candidate is known
(`mcn? = none` models indexing a non-dict container that claimed to
contain the key).  `model_class_name is None` returns `None`; otherwise
the registry is consulted and `model()` is called — calling the `none`
sentinel raises `TypeError`.  The fresh instance is appended to the heap,
then inserted in the cache only if the key is absent; the value returned
is the cache entry (which can predate the fresh instance). -/
def spawn_with_classname (env : Env) (s : Engine) (obj : SValue) (mcn? : Option SValue) :
    PRes Engine (Option Nat) :=
  match mcn? with
  | none => .err (.typeError "string indices must be integers") s
  | some .vnull => .ok none s
  | some mcn =>
    match mcn, classFromName env mcn with
    | _, none => .err (.typeError "NoneType object is not callable") s
    | mcn, some _ =>
      let ref := s.heap.length
      let s1 := { s with heap := s.heap ++ [⟨pyStr mcn, [], 0⟩] }
      match get_key obj with
      | .error e => .err e s1
      | .ok key =>
        let s2 := if (lookupStr s1.cache key).isSome then s1
                  else { s1 with cache := setEntry s1.cache key (some ref) }
        match lookupStr s2.cache key with
        | some v => .ok v s2
        | none => .err (.keyError key) s2

/-- `ObjectDesimplifier.spawn_empty_model`.  The source initializes the
(dead) variable `model_class`, not `model_class_name`; when neither
classname key is present, the read of `model_class_name` raises
`UnboundLocalError`. -/
def spawn_empty_model (env : Env) (s : Engine) (obj : SValue) : PRes Engine (Option Nat) :=
  match svContains obj "novabase_classname" with
  | .error e => .err e s
  | .ok true => spawn_with_classname env s obj (svGet obj "novabase_classname")
  | .ok false =>
    match svContains obj "metadata_novabase_classname" with
    | .error e => .err e s
    | .ok true => spawn_with_classname env s obj (svGet obj "metadata_novabase_classname")
    | .ok false => .err (.unboundLocal "model_class_name") s

/-- Bump the fixup counter when a `desimplify` result is a `NovaBase`
instance (`isinstance(result, models.NovaBase)` at the end of
`desimplify`). -/
def applyModelFk : PRes Engine RValue → PRes Engine RValue
  | .ok (.rmodel ref) s => .ok (.rmodel ref) (bumpFk s ref)
  | r => r

mutual

/-- `ObjectDesimplifier.desimplify`: strategy dispatch, list recursion,
classname-tagged dicts, scalar fall-through; then the trailing
`update_foreign_keys` call on `NovaBase` results. -/
def desimplify (env : Env) (fuel : Nat) (s : Engine) (obj : SValue) : PRes Engine RValue :=
  match fuel with
  | 0 => .fuel
  | m + 1 =>
    let result : PRes Engine RValue :=
      if is_dict_and_has_key obj "simplify_strategy" then
        match svGet obj "simplify_strategy" with
        | some (.vstr "datetime") => liftE (datetime_desimplify obj) s
        | some (.vstr "ipnetwork") => liftE (ipnetwork_desimplify obj) s
        | some (.vstr "novabase") => novabase_desimplify env m s obj
        | _ => .ok (.raw obj) s
      else
        match obj with
        | .vlist xs =>
          (match desimplify_list env m s xs with
           | .ok rs s1 => .ok (.rlist rs) s1
           | .err e s1 => .err e s1
           | .fuel => .fuel)
        | _ =>
          if is_dict_and_has_key obj "novabase_classname" then
            novabase_desimplify env m s obj
          else if is_dict_and_has_key obj "metadata_novabase_classname" then
            novabase_desimplify env m s obj
          else .ok (.raw obj) s
    applyModelFk result

/-- The list comprehension inside `desimplify`: elementwise recursion,
order preserved. -/
def desimplify_list (env : Env) (fuel : Nat) (s : Engine) (xs : List SValue) :
    PRes Engine (List RValue) :=
  match fuel with
  | 0 => .fuel
  | m + 1 =>
    match xs with
    | [] => .ok [] s
    | x :: rest =>
      match desimplify env m s x with
      | .fuel => .fuel
      | .err e s1 => .err e s1
      | .ok r s1 =>
        match desimplify_list env m s1 rest with
        | .fuel => .fuel
        | .err e s2 => .err e s2
        | .ok rs s2 => .ok (r :: rs) s2

/-- `ObjectDesimplifier.novabase_desimplify`: compute the key; on a cache
hit return the cached value; otherwise assign
`cache[key] = spawn_empty_model(obj)`, run `update_nova_model(obj)`, and
return the final `cache[key]`. -/
def novabase_desimplify (env : Env) (fuel : Nat) (s : Engine) (obj : SValue) :
    PRes Engine RValue :=
  match fuel with
  | 0 => .fuel
  | m + 1 =>
    match get_key obj with
    | .error e => .err e s
    | .ok key =>
      match lookupStr s.cache key with
      | some cv => .ok (renderCached cv) s
      | none =>
        match spawn_empty_model env s obj with
        | .fuel => .fuel
        | .err e s1 => .err e s1
        | .ok spawned s1 =>
          let s2 := { s1 with cache := setEntry s1.cache key spawned }
          match update_nova_model env m s2 obj with
          | .fuel => .fuel
          | .err e s3 => .err e s3
          | .ok _ s3 =>
            match lookupStr s3.cache key with
            | some cv => .ok (renderCached cv) s3
            | none => .err (.keyError key) s3

/-- `ObjectDesimplifier.update_nova_model`, first half: read
`cache[get_key(obj)]` (KeyError when absent); when the mapping carries
`simplify_strategy`, fetch the full record from the store by
`obj["tablename"]` / `obj["id"]` and continue with the fetched record,
else continue with the original mapping. -/
def update_nova_model (env : Env) (fuel : Nat) (s : Engine) (obj : SValue) :
    PRes Engine RValue :=
  match fuel with
  | 0 => .fuel
  | m + 1 =>
    match get_key obj with
    | .error e => .err e s
    | .ok key =>
      match lookupStr s.cache key with
      | none => .err (.keyError key) s
      | some mref? =>
        match svContains obj "simplify_strategy" with
        | .error e => .err e s
        | .ok true =>
          match svGet obj "tablename" with
          | none => .err (.keyError "tablename") s
          | some tn =>
            match svGet obj "id" with
            | none => .err (.keyError "id") s
            | some idv =>
              let fetched := env.store (pyStr tn) (pyStr idv)
              let s1 := { s with fetchCount := s.fetchCount + 1 }
              update_nova_model_body env m s1 mref? (fetched.getD .vnull)
        | .ok false => update_nova_model_body env m s mref? obj

/-- `ObjectDesimplifier.update_nova_model`, second half: the per-field
population loop over the (possibly fetched) record, then the `user_id` /
`project_id` special cases (unprotected assignments), then
`update_foreign_keys`, returning `current_model`.  Iterating a non-dict
record (for example the `None` data of a missing store record) raises
`TypeError`. -/
def update_nova_model_body (env : Env) (fuel : Nat) (s : Engine) (mref? : Option Nat)
    (obj : SValue) : PRes Engine RValue :=
  match fuel with
  | 0 => .fuel
  | m + 1 =>
    match obj with
    | .vdict _ fs =>
      match populate_fields env m s mref? fs with
      | .fuel => .fuel
      | .err e s1 => .err e s1
      | .ok _ s1 =>
        match
          (if modelHasAttr env s1 mref? "user_id" then
            match lookupStr fs "user_id" with
            | some v => modelSetattr env s1 mref? "user_id" (.raw v)
            | none => .ok s1
          else .ok s1 : Except PyErr Engine)
        with
        | .error e => .err e s1
        | .ok s2 =>
          match
            (if modelHasAttr env s2 mref? "project_id" then
              match lookupStr fs "project_id" with
              | some v => modelSetattr env s2 mref? "project_id" (.raw v)
              | none => .ok s2
            else .ok s2 : Except PyErr Engine)
          with
          | .error e => .err e s2
          | .ok s3 =>
            match callFk s3 mref? with
            | .error e => .err e s3
            | .ok s4 => .ok (renderCached mref?) s4
    | _ => .err (.typeError "object is not iterable") s

/-- The `for key in obj` population loop of `update_nova_model`: for each
field, `desimplify` the value (outside the `try`, so its exceptions
propagate); when the result is not `None`, `desimplify` it again and
assign, else assign the raw value; exceptions raised inside the `try` are
caught — a message containing "None is not list-like" assigns `[]`
instead, anything else is suppressed — and the loop continues. -/
def populate_fields (env : Env) (fuel : Nat) (s : Engine) (mref? : Option Nat)
    (fields : List (String × SValue)) : PRes Engine Unit :=
  match fuel with
  | 0 => .fuel
  | m + 1 =>
    match fields with
    | [] => .ok () s
    | (k, v) :: rest =>
      match desimplify env m s v with
      | .fuel => .fuel
      | .err e s1 => .err e s1
      | .ok sv s1 =>
        match populate_attempt env m s1 mref? k v sv with
        | .fuel => .fuel
        | .ok _ s2 => populate_fields env m s2 mref? rest
        | .err e s2 =>
          if hasSubstr listLikeMsg.toList (errToStr e).toList then
            match modelSetattr env s2 mref? k (.rlist []) with
            | .ok s3 => populate_fields env m s3 mref? rest
            | .error e2 => .err e2 s2
          else populate_fields env m s2 mref? rest

/-- The `try` block of the population loop, for one field `(k, v)` whose
first desimplification gave `sv`: when `sv` is not `None`, desimplify the
value again and assign the result, else assign the raw value; the outcome
(`err` = the exception caught by the `except` clause) is handled by
`populate_fields`. -/
def populate_attempt (env : Env) (fuel : Nat) (s1 : Engine) (mref? : Option Nat)
    (k : String) (v : SValue) (sv : RValue) : PRes Engine Unit :=
  match fuel with
  | 0 => .fuel
  | m + 1 =>
    match sv with
    | .raw .vnull =>
      (match modelSetattr env s1 mref? k (.raw v) with
       | .ok s2 => .ok () s2
       | .error e => .err e s1)
    | _ =>
      match desimplify env m s1 v with
      | .fuel => .fuel
      | .err e s2 => .err e s2
      | .ok sv2 s2 =>
        match modelSetattr env s2 mref? k sv2 with
        | .ok s3 => .ok () s3
        | .error e => .err e s2

end

/-- A fresh `ObjectDesimplifier` (`self.cache = {}`), with an empty heap
and no fetches performed. -/
def initEngine : Engine := { cache := [], heap := [], fetchCount := 0 }

/-- A `LazyReference`: the collection (table) name and the id it was
constructed with (`str(self.id)` is used everywhere, so the id is kept as
a string). -/
structure LazyRef where
  base : String
  id : String

/-- The mutable state of one `LazyReference`: its own memo cache
`self.cache` (which only ever holds real model objects), and the state of
its `ObjectDesimplifier` (which also carries the shared heap and the
store-fetch counter). -/
structure LazyState where
  lcache : List (String × Nat)
  eng : Engine

/-- `LazyReference.get_key`:
`get_model_classname_from_tablename(self.base) + "_" + str(self.id)`.
The registry sentinel for an unknown table renders as Python `None`
does under `"%s"`. -/
def lazy_get_key (env : Env) (l : LazyRef) : String :=
  (match env.tableToClass l.base with
   | some c => c
   | none => "None") ++ "_" ++ l.id

/-- Helper for `LazyReference.spawn_empty_model` once the classname
candidate is known; mirrors `spawn_with_classname` except that the key is
the lazy reference's own key and the memo cache holds bare references. -/
def lazy_spawn_with_classname (env : Env) (ls : LazyState) (key : String)
    (mcn? : Option SValue) : PRes LazyState (Option Nat) :=
  match mcn? with
  | none => .err (.typeError "string indices must be integers") ls
  | some .vnull => .ok none ls
  | some mcn =>
    match mcn, classFromName env mcn with
    | _, none => .err (.typeError "NoneType object is not callable") ls
    | mcn, some _ =>
      let ref := ls.eng.heap.length
      let ls1 : LazyState :=
        { ls with eng := { ls.eng with heap := ls.eng.heap ++ [⟨pyStr mcn, [], 0⟩] } }
      let ls2 := if (lookupStr ls1.lcache key).isSome then ls1
                 else { ls1 with lcache := setEntry ls1.lcache key ref }
      match lookupStr ls2.lcache key with
      | some v => .ok (some v) ls2
      | none => .err (.keyError key) ls2

/-- `LazyReference.spawn_empty_model`.  As in the desimplifier, when
neither classname key is present the read of `model_class_name` raises
`UnboundLocalError`; a `None` classname returns `None` without touching
the memo cache. -/
def lazy_spawn_empty_model (env : Env) (ls : LazyState) (l : LazyRef) (obj : SValue) :
    PRes LazyState (Option Nat) :=
  let key := lazy_get_key env l
  match svContains obj "novabase_classname" with
  | .error e => .err e ls
  | .ok true => lazy_spawn_with_classname env ls key (svGet obj "novabase_classname")
  | .ok false =>
    match svContains obj "metadata_novabase_classname" with
    | .error e => .err e ls
    | .ok true => lazy_spawn_with_classname env ls key (svGet obj "metadata_novabase_classname")
    | .ok false => .err (.unboundLocal "model_class_name") ls

/-- `setattr` on the lazy reference's model: delegates to the shared heap. -/
def lazy_modelSetattr (env : Env) (ls : LazyState) (mref? : Option Nat) (k : String)
    (v : RValue) : Except PyErr LazyState :=
  match modelSetattr env ls.eng mref? k v with
  | .ok s1 => .ok { ls with eng := s1 }
  | .error e => .error e

/-- The population loop of `LazyReference.update_nova_model`: identical
policy to the desimplifier's loop, but field values are desimplified
through `self.desimplifier`. -/
def lazy_populate_fields (env : Env) (fuel : Nat) (ls : LazyState) (mref? : Option Nat) :
    List (String × SValue) → PRes LazyState Unit
  | [] => .ok () ls
  | (k, v) :: rest =>
    match desimplify env fuel ls.eng v with
    | .fuel => .fuel
    | .err e s1 => .err e { ls with eng := s1 }
    | .ok sv s1 =>
      let ls1 : LazyState := { ls with eng := s1 }
      let attempt : PRes LazyState Unit :=
        match sv with
        | .raw .vnull =>
          (match lazy_modelSetattr env ls1 mref? k (.raw v) with
           | .ok ls2 => .ok () ls2
           | .error e => .err e ls1)
        | _ =>
          match desimplify env fuel ls1.eng v with
          | .fuel => .fuel
          | .err e s2 => .err e { ls1 with eng := s2 }
          | .ok sv2 s2 =>
            let ls2 : LazyState := { ls1 with eng := s2 }
            match lazy_modelSetattr env ls2 mref? k sv2 with
            | .ok ls3 => .ok () ls3
            | .error e => .err e ls2
      match attempt with
      | .fuel => .fuel
      | .ok _ ls2 => lazy_populate_fields env fuel ls2 mref? rest
      | .err e ls2 =>
        if hasSubstr listLikeMsg.toList (errToStr e).toList then
          match lazy_modelSetattr env ls2 mref? k (.rlist []) with
          | .ok ls3 => lazy_populate_fields env fuel ls3 mref? rest
          | .error e2 => .err e2 ls2
        else lazy_populate_fields env fuel ls2 mref? rest

/-- `LazyReference.update_nova_model`.  Reads `self.cache[self.get_key()]`
(KeyError when absent).  The indirection branch references the module
global `db_client`, but `lazy_reference.py` defines `dbClient`: the read
raises `NameError` before any fetch can happen. -/
def lazy_update_nova_model (env : Env) (fuel : Nat) (ls : LazyState) (l : LazyRef)
    (obj : SValue) : PRes LazyState RValue :=
  let key := lazy_get_key env l
  match lookupStr ls.lcache key with
  | none => .err (.keyError key) ls
  | some mref =>
    match svContains obj "simplify_strategy" with
    | .error e => .err e ls
    | .ok true => .err (.nameError "db_client") ls
    | .ok false =>
      match obj with
      | .vdict _ fs =>
        match lazy_populate_fields env fuel ls (some mref) fs with
        | .fuel => .fuel
        | .err e ls1 => .err e ls1
        | .ok _ ls1 =>
          match
            (if modelHasAttr env ls1.eng (some mref) "user_id" then
              match lookupStr fs "user_id" with
              | some v => lazy_modelSetattr env ls1 (some mref) "user_id" (.raw v)
              | none => .ok ls1
            else .ok ls1 : Except PyErr LazyState)
          with
          | .error e => .err e ls1
          | .ok ls2 =>
            match
              (if modelHasAttr env ls2.eng (some mref) "project_id" then
                match lookupStr fs "project_id" with
                | some v => lazy_modelSetattr env ls2 (some mref) "project_id" (.raw v)
                | none => .ok ls2
              else .ok ls2 : Except PyErr LazyState)
            with
            | .error e => .err e ls2
            | .ok ls3 => .ok (.rmodel mref) { ls3 with eng := bumpFk ls3.eng mref }
      | _ => .err (.typeError "object is not iterable") ls

/-- `LazyReference.load`: fetch the raw record from the store by
`(self.base, str(self.id))` (a missing record yields data `None`), spawn
the empty model, populate it, and return `self.cache[key]`. -/
def lazy_load (env : Env) (fuel : Nat) (ls : LazyState) (l : LazyRef) :
    PRes LazyState Nat :=
  let key := lazy_get_key env l
  let fetched := env.store l.base l.id
  let ls1 : LazyState := { ls with eng := { ls.eng with fetchCount := ls.eng.fetchCount + 1 } }
  let obj := fetched.getD .vnull
  match lazy_spawn_empty_model env ls1 l obj with
  | .fuel => .fuel
  | .err e ls2 => .err e ls2
  | .ok _ ls2 =>
    match lazy_update_nova_model env fuel ls2 l obj with
    | .fuel => .fuel
    | .err e ls3 => .err e ls3
    | .ok _ ls3 =>
      match lookupStr ls3.lcache key with
      | some r => .ok r ls3
      | none => .err (.keyError key) ls3

/-- `LazyReference.get_complex_ref`: return the memoized object when
present, else `load()` and return the now-cached object. -/
def lazy_get_complex_ref (env : Env) (fuel : Nat) (ls : LazyState) (l : LazyRef) :
    PRes LazyState Nat :=
  let key := lazy_get_key env l
  match lookupStr ls.lcache key with
  | some r => .ok r ls
  | none =>
    match lazy_load env fuel ls l with
    | .fuel => .fuel
    | .err e ls1 => .err e ls1
    | .ok _ ls1 =>
      match lookupStr ls1.lcache key with
      | some r => .ok r ls1
      | none => .err (.keyError key) ls1

/-- `LazyReference.__str__`: renders `"Lazy(%s)" % self.get_key()` without
touching the store or the memo. -/
def lazy_str (env : Env) (ls : LazyState) (l : LazyRef) : String × LazyState :=
  ("Lazy(" ++ lazy_get_key env l ++ ")", ls)

/-- `LazyReference.__repr__`: same rendering as `__str__`. -/
def lazy_repr (env : Env) (ls : LazyState) (l : LazyRef) : String × LazyState :=
  ("Lazy(" ++ lazy_get_key env l ++ ")", ls)

/-- A fresh `LazyReference` session: empty memo cache, fresh
desimplifier. -/
def initLazyState : LazyState := { lcache := [], eng := initEngine }

/-! ## Concrete environments used by witnesses and counterexamples -/

/-- A well-behaved model class: every attribute assignment succeeds, no
ownership fields. -/
def demoClass : ModelClass :=
  { name := "X", setResult := fun _ _ => none, hasUserId := false, hasProjectId := false }

/-- A registry knowing the single class `X` for table `ts`, over an empty
store. -/
def demoEnv : Env :=
  { registry := fun n => if n == "X" then some demoClass else none
    tableToClass := fun t => if t == "ts" then some "X" else none
    store := fun _ _ => none }
-- theorem batch 1 (appended to dev copy for testing)

/-! ## C10 -/

/-- C10: a mapping that carries neither a strategy tag nor a classname
field is returned unchanged by `desimplify`, with the engine state
untouched (no recursion into its nested values). -/
theorem C10_plain_dict_unchanged (env : Env) (n : Nat) (s : Engine) (a : Nat)
    (fs : List (String × SValue))
    (h1 : is_dict_and_has_key (.vdict a fs) "simplify_strategy" = false)
    (h2 : is_dict_and_has_key (.vdict a fs) "novabase_classname" = false)
    (h3 : is_dict_and_has_key (.vdict a fs) "metadata_novabase_classname" = false) :
    desimplify env (n + 1) s (.vdict a fs) = .ok (.raw (.vdict a fs)) s := by
  simp [desimplify, h1, h2, h3, applyModelFk]

/-- C10 witness: a concrete untagged dict with nested values is returned
unchanged. -/
theorem C10_plain_dict_unchanged_witness :
    desimplify demoEnv 5 initEngine (.vdict 1 [("a", .vint 3), ("b", .vdict 2 [("c", .vnull)])]) =
      .ok (.raw (.vdict 1 [("a", .vint 3), ("b", .vdict 2 [("c", .vnull)])])) initEngine :=
  C10_plain_dict_unchanged demoEnv 4 initEngine 1 [("a", .vint 3), ("b", .vdict 2 [("c", .vnull)])]
    rfl rfl rfl

/-! ## C5 -/

/-- C5 counterexample: a mapping carrying a type-classname together with an
unrecognised strategy tag is NOT reconstructed: `desimplify` returns it
unchanged, creating no domain object and touching no cache. -/
theorem C5_counterexample :
    desimplify demoEnv 20 initEngine
      (.vdict 9 [("simplify_strategy", .vstr "foo"), ("novabase_classname", .vstr "X")]) =
      .ok (.raw (.vdict 9 [("simplify_strategy", .vstr "foo"), ("novabase_classname", .vstr "X")]))
        initEngine := by
  rfl

/-- C5 amended: a mapping carrying a type-classname field is reconstructed
when its strategy tag, if any, is `novabase`; `desimplify` then routes to
`novabase_desimplify` (a `datetime`, `ipnetwork` or unrecognised tag takes
precedence instead). -/
theorem C5_amended (env : Env) (n : Nat) (s : Engine) (a : Nat)
    (fs : List (String × SValue))
    (hcn : is_dict_and_has_key (.vdict a fs) "novabase_classname" = true ∨
           is_dict_and_has_key (.vdict a fs) "metadata_novabase_classname" = true)
    (hstrat : svGet (.vdict a fs) "simplify_strategy" = none ∨
              svGet (.vdict a fs) "simplify_strategy" = some (.vstr "novabase")) :
    desimplify env (n + 1) s (.vdict a fs) = applyModelFk (novabase_desimplify env n s (.vdict a fs)) := by
  have hdk : ∀ k, is_dict_and_has_key (.vdict a fs) k = (lookupStr fs k).isSome := by
    intro k; rfl
  have hsv : ∀ k, svGet (.vdict a fs) k = lookupStr fs k := by
    intro k; rfl
  rcases hstrat with hstrat | hstrat
  · have hns : is_dict_and_has_key (.vdict a fs) "simplify_strategy" = false := by
      rw [hdk, ← hsv, hstrat]; rfl
    rcases hcn with hcn | hcn
    · simp [desimplify, hns, hcn]
    · by_cases hcn1 : is_dict_and_has_key (.vdict a fs) "novabase_classname" = true
      · simp [desimplify, hns, hcn1]
      · simp at hcn1
        simp [desimplify, hns, hcn1, hcn]
  · have hys : is_dict_and_has_key (.vdict a fs) "simplify_strategy" = true := by
      rw [hdk, ← hsv, hstrat]; rfl
    simp [desimplify, hys, hstrat]

/-- C5 amended witness: a mapping with both the `novabase` strategy tag and
a classname routes to object reconstruction. -/
theorem C5_amended_witness :
    desimplify demoEnv 20 initEngine
      (.vdict 9 [("simplify_strategy", .vstr "novabase"), ("tablename", .vstr "ts"),
                 ("id", .vint 1), ("novabase_classname", .vstr "X")]) =
      applyModelFk (novabase_desimplify demoEnv 19 initEngine
        (.vdict 9 [("simplify_strategy", .vstr "novabase"), ("tablename", .vstr "ts"),
                   ("id", .vint 1), ("novabase_classname", .vstr "X")])) :=
  C5_amended demoEnv 19 initEngine 9 _ (Or.inl rfl) (Or.inr rfl)

/-! ## C3 -/

/-- C3: evaluating the code at the failing input — a `novabase`-tagged
mapping with no classname field.  `spawn_empty_model` reads the unassigned
local `model_class_name` (the source initializes the dead variable
`model_class` instead), so reconstruction raises `UnboundLocalError`
rather than yielding `None`. -/
theorem C3_theorem :
    desimplify demoEnv 20 initEngine
      (.vdict 3 [("simplify_strategy", .vstr "novabase"), ("tablename", .vstr "ts"),
                 ("id", .vint 1)]) =
      .err (.unboundLocal "model_class_name") initEngine := by
  rfl

/-! ## C9 -/

/-- C9: debug rendering of a `LazyReference` leaves the state (memo cache,
engine, fetch count) unchanged, for both `__str__` and `__repr__`; the
rendered text is the opaque `Lazy(key)` tag and depends only on the
`(collection-name, id)` pair. -/
theorem C9_render_no_fetch (env : Env) (ls ls2 : LazyState) (l l2 : LazyRef)
    (hb : l2.base = l.base) (hi : l2.id = l.id) :
    (lazy_str env ls l).2 = ls ∧ (lazy_repr env ls l).2 = ls ∧
    (lazy_str env ls l).2.eng.fetchCount = ls.eng.fetchCount ∧
    (lazy_str env ls l).1 = "Lazy(" ++ lazy_get_key env l ++ ")" ∧
    (lazy_repr env ls l).1 = (lazy_str env ls l).1 ∧
    (lazy_str env ls2 l2).1 = (lazy_str env ls l).1 := by
  simp [lazy_str, lazy_repr, lazy_get_key, hb, hi]

/-- C9 witness: concrete rendering of a fresh lazy reference. -/
theorem C9_render_no_fetch_witness :
    (lazy_str demoEnv initLazyState { base := "ts", id := "7" }).2 = initLazyState ∧
    (lazy_repr demoEnv initLazyState { base := "ts", id := "7" }).2 = initLazyState ∧
    (lazy_str demoEnv initLazyState { base := "ts", id := "7" }).2.eng.fetchCount =
      initLazyState.eng.fetchCount ∧
    (lazy_str demoEnv initLazyState { base := "ts", id := "7" }).1 =
      "Lazy(" ++ lazy_get_key demoEnv { base := "ts", id := "7" } ++ ")" ∧
    (lazy_repr demoEnv initLazyState { base := "ts", id := "7" }).1 =
      (lazy_str demoEnv initLazyState { base := "ts", id := "7" }).1 ∧
    (lazy_str demoEnv initLazyState { base := "ts", id := "7" }).1 =
      (lazy_str demoEnv initLazyState { base := "ts", id := "7" }).1 :=
  C9_render_no_fetch demoEnv initLazyState initLazyState
    { base := "ts", id := "7" } { base := "ts", id := "7" } rfl rfl

set_option maxHeartbeats 2000000

/-! ## Concrete inputs for counterexamples -/

/-- Two distinct dict objects with the same `(classname, id)` and no
`tablename` key. -/
def c1map1 : SValue := .vdict 1 [("novabase_classname", .vstr "X"), ("id", .vint 7)]

/-- Second mapping, same classname and id, different dict address. -/
def c1map2 : SValue := .vdict 2 [("novabase_classname", .vstr "X"), ("id", .vint 7)]

/-- A mapping whose field `p` is a reference carrying its own
`(classname, id)` — but no `tablename`. -/
def c2outer : SValue :=
  .vdict 5 [("novabase_classname", .vstr "X"), ("id", .vint 7),
            ("p", .vdict 6 [("novabase_classname", .vstr "X"), ("id", .vint 7)])]

/-- A simple tagged object mapping with only scalar fields. -/
def c4obj : SValue :=
  .vdict 4 [("tablename", .vstr "ts"), ("id", .vint 1), ("novabase_classname", .vstr "X")]

/-! ## C1 -/

/-- C1 counterexample: one engine processes one input graph containing two
tagged mappings with the identical identity pair `(classname, id)` =
(`"X"`, `7`); they are rehydrated to two different domain-object
instances (heap references 0 and 1), because `get_key` keys mappings
without a `tablename` field by dict address. -/
theorem C1_counterexample :
    (∃ s, desimplify demoEnv 40 initEngine (.vlist [c1map1, c1map2]) =
      .ok (.rlist [.rmodel 0, .rmodel 1]) s) ∧ RValue.rmodel 0 ≠ RValue.rmodel 1 :=
  ⟨⟨_, rfl⟩, by simp⟩

/-! ## C2 -/

/-- C2 counterexample: a mapping whose field set contains a reference to
its own `(classname, id)` (without a `tablename`).  Rehydration
terminates, but the self-referential field points at a second, distinct
instance (reference 1), not back at the object itself (reference 0). -/
theorem C2_counterexample :
    (∃ s o, desimplify demoEnv 40 initEngine c2outer = .ok (.rmodel 0) s ∧
      s.heap.get? 0 = some o ∧ lookupStr o.attrs "p" = some (.rmodel 1)) ∧
    RValue.rmodel 1 ≠ RValue.rmodel 0 :=
  ⟨⟨_, _, rfl, rfl, rfl⟩, by simp⟩

/-! ## C4 -/

/-- C4 counterexample: rehydrating a simple tagged mapping (no model-valued
fields) invokes `update_foreign_keys` twice on the reconstructed object —
once at the end of `update_nova_model` and once more by the trailing
`isinstance(result, NovaBase)` block of `desimplify` — not exactly once. -/
theorem C4_counterexample :
    (∃ s, desimplify demoEnv 20 initEngine c4obj = .ok (.rmodel 0) s ∧
      s.heap.map (fun o => o.fkCount) = [2]) ∧ (2 : Nat) ≠ 1 :=
  ⟨⟨_, rfl, rfl⟩, by simp⟩

/-! ## C7 -/

/-- Store for the indirection scenario: table `ts`, id `3` holds the full
record, whose fields include `flavor` (not present inline). -/
def envIndir : Env :=
  { demoEnv with
    store := fun b k =>
      if b == "ts" && k == "3" then
        some (.vdict 11 [("tablename", .vstr "ts"), ("id", .vint 3),
                         ("novabase_classname", .vstr "X"), ("flavor", .vstr "large")])
      else none }

/-- A bare indirection mapping: strategy tag, `tablename`, `id`, classname,
plus an inline field `inline_marker` that the fetched record does not
have. -/
def c7indir : SValue :=
  .vdict 12 [("simplify_strategy", .vstr "novabase"), ("tablename", .vstr "ts"),
             ("id", .vint 3), ("novabase_classname", .vstr "X"),
             ("inline_marker", .vstr "orig")]

/-- The lazy state for the NameError half: the memo cache already holds the
model for key `X_3`. -/
def lsIndir : LazyState :=
  { lcache := [("X_3", 0)]
    eng := { cache := [], heap := [{ klass := "X", attrs := [], fkCount := 0 }], fetchCount := 0 } }

/-- C7: the engine's reconstruction path on a bare indirection fetches the
full record by collection-name and id (one fetch) and populates the object
from the fetched record's fields (`flavor` is set, the inline-only field is
not); but the Lazy Reference's path raises `NameError` — the module defines
`dbClient` while `update_nova_model` references `db_client` — instead of
fetching. -/
theorem C7_theorem :
    (∃ s o, desimplify envIndir 20 initEngine c7indir = .ok (.rmodel 0) s ∧
      s.fetchCount = 1 ∧ s.heap.get? 0 = some o ∧
      lookupStr o.attrs "flavor" = some (.raw (.vstr "large")) ∧
      lookupStr o.attrs "inline_marker" = none) ∧
    lazy_update_nova_model envIndir 20 lsIndir { base := "ts", id := "3" } c7indir =
      .err (.nameError "db_client") lsIndir :=
  ⟨⟨_, _, rfl, rfl, rfl, rfl, rfl⟩, rfl⟩

/-! ## C8 -/

/-- Store whose record for `(ts, 7)` has a `None` classname, so resolution
fails after the fetch and nothing is memoized. -/
def envLazyFail : Env :=
  { demoEnv with
    store := fun b k =>
      if b == "ts" && k == "7" then some (.vdict 10 [("novabase_classname", .vnull)])
      else none }

/-- C8 counterexample: on a store record that fails to resolve, calling
`get_complex_ref` twice on one `LazyReference` performs two store fetches
(the failed first resolution memoizes nothing), contradicting "at most one
store fetch across its lifetime". -/
theorem C8_counterexample :
    ∃ ls1 ls2,
      lazy_get_complex_ref envLazyFail 20 initLazyState { base := "ts", id := "7" } =
        .err (.keyError "X_7") ls1 ∧
      ls1.eng.fetchCount = 1 ∧
      lazy_get_complex_ref envLazyFail 20 ls1 { base := "ts", id := "7" } =
        .err (.keyError "X_7") ls2 ∧
      ls2.eng.fetchCount = 2 :=
  ⟨_, _, rfl, rfl, rfl, rfl⟩

/-- C2 amended: a tagged mapping whose field set contains a reference
carrying its own `(tablename, id)` — the pair `get_key` actually keys the
identity cache by — rehydrates without unbounded recursion (it succeeds at
finite fuel from a fresh engine): the object is cached before its fields
are populated, the recursive call for the self-referential field hits the
cache, and the resulting object's self-referential field points back to
the object itself. -/
theorem C2_amended (env : Env) (t i c f : String) (a1 a2 : Nat) (cls : ModelClass)
    (h1 : env.registry c = some cls)
    (h2 : ∀ k v, cls.setResult k v = none)
    (h3 : cls.hasUserId = false) (h4 : cls.hasProjectId = false)
    (hf : f ∉ ["tablename", "id", "novabase_classname", "metadata_novabase_classname",
               "simplify_strategy", "user_id", "project_id"]) :
    ∃ s o, desimplify env 40 initEngine
        (.vdict a1 [("tablename", .vstr t), ("id", .vstr i), ("novabase_classname", .vstr c),
                    (f, .vdict a2 [("tablename", .vstr t), ("id", .vstr i),
                                   ("novabase_classname", .vstr c)])]) =
      .ok (.rmodel 0) s ∧ s.heap.get? 0 = some o ∧ lookupStr o.attrs f = some (.rmodel 0) := by
  simp only [List.mem_cons, List.not_mem_nil, or_false, not_or] at hf
  obtain ⟨hfa, hfb, hfc, hfd, hfe, hff, hfg⟩ := hf
  refine ⟨{ cache := [(t ++ "-" ++ i, some 0)]
            heap := [{ klass := c
                       attrs := [("tablename", .raw (.vstr t)), ("id", .raw (.vstr i)),
                                 ("novabase_classname", .raw (.vstr c)), (f, .rmodel 0)]
                       fkCount := 4 }]
            fetchCount := 0 },
          { klass := c
            attrs := [("tablename", .raw (.vstr t)), ("id", .raw (.vstr i)),
                      ("novabase_classname", .raw (.vstr c)), (f, .rmodel 0)]
            fkCount := 4 }, ?_, rfl, ?_⟩
  · simp [desimplify, novabase_desimplify, update_nova_model, update_nova_model_body,
      populate_fields, populate_attempt, spawn_empty_model, spawn_with_classname,
      classFromName, get_key,
      svGet, svContains, is_dict_and_has_key, lookupStr, setEntry, modelSetattr,
      classSetResult, modelHasAttr, callFk, bumpFk, applyModelFk, renderCached, liftE,
      pyStr, initEngine, h1, h2, h3, h4,
      hfa, hfb, hfc, hfd, hfe, hff, hfg,
      Ne.symm hfa, Ne.symm hfb, Ne.symm hfc, Ne.symm hfd, Ne.symm hfe, Ne.symm hff,
      Ne.symm hfg]
  · simp [lookupStr, Ne.symm hfa, Ne.symm hfb, Ne.symm hfc]

/-- C2 amended witness: concrete self-referential mapping over the demo
registry. -/
theorem C2_amended_witness :
    ∃ s o, desimplify demoEnv 40 initEngine
        (.vdict 31 [("tablename", .vstr "ts"), ("id", .vstr "7"),
                    ("novabase_classname", .vstr "X"),
                    ("parent", .vdict 32 [("tablename", .vstr "ts"), ("id", .vstr "7"),
                                          ("novabase_classname", .vstr "X")])]) =
      .ok (.rmodel 0) s ∧ s.heap.get? 0 = some o ∧
      lookupStr o.attrs "parent" = some (.rmodel 0) :=
  C2_amended demoEnv "ts" "7" "X" "parent" 31 32 demoClass rfl (fun _ _ => rfl) rfl rfl
    (by decide)

/-- C4 amended: the relationship-fixup hook is invoked once immediately
after field population (inside `update_nova_model`) and additionally once
every time a `desimplify` invocation returns the object; for a top-level
tagged mapping with only scalar fields this totals exactly two
invocations, not one. -/
theorem C4_amended (env : Env) (t i c : String) (a : Nat) (cls : ModelClass)
    (h1 : env.registry c = some cls)
    (h2 : ∀ k v, cls.setResult k v = none)
    (h3 : cls.hasUserId = false) (h4 : cls.hasProjectId = false) :
    ∃ s, desimplify env 20 initEngine
        (.vdict a [("tablename", .vstr t), ("id", .vstr i), ("novabase_classname", .vstr c)]) =
      .ok (.rmodel 0) s ∧ s.heap.map (fun o => o.fkCount) = [2] := by
  refine ⟨{ cache := [(t ++ "-" ++ i, some 0)]
            heap := [{ klass := c
                       attrs := [("tablename", .raw (.vstr t)), ("id", .raw (.vstr i)),
                                 ("novabase_classname", .raw (.vstr c))]
                       fkCount := 2 }]
            fetchCount := 0 }, ?_, rfl⟩
  simp [desimplify, novabase_desimplify, update_nova_model, update_nova_model_body,
    populate_fields, populate_attempt, spawn_empty_model, spawn_with_classname,
    classFromName, get_key,
    svGet, svContains, is_dict_and_has_key, lookupStr, setEntry, modelSetattr,
    classSetResult, modelHasAttr, callFk, bumpFk, applyModelFk, renderCached, liftE,
    pyStr, initEngine, h1, h2, h3, h4]

/-- C4 amended witness: concrete scalar-field mapping over the demo
registry, two fixup invocations. -/
theorem C4_amended_witness :
    ∃ s, desimplify demoEnv 20 initEngine
        (.vdict 33 [("tablename", .vstr "ts"), ("id", .vstr "7"),
                    ("novabase_classname", .vstr "X")]) =
      .ok (.rmodel 0) s ∧ s.heap.map (fun o => o.fkCount) = [2] :=
  C4_amended demoEnv "ts" "7" "X" 33 demoClass rfl (fun _ _ => rfl) rfl rfl

/-- C6: the per-field assignment-failure policy of the population loop.
Left conjunct: assigning a null rehydrated value to a field whose
assignment fails with a message containing "None is not list-like" sets
the field to the empty sequence instead, and population continues with
the remaining fields.  Right conjunct: any other per-field assignment
failure is caught and suppressed (the field stays unset) and population
continues with the remaining fields — no propagation to the caller. -/
theorem C6_assignment_failure_policy :
    (∀ (env : Env) (m : Nat) (s : Engine) (ref : Nat) (o : NovaObject) (k msg : String)
       (rest : List (String × SValue)),
      s.heap[ref]? = some o →
      classSetResult env o.klass k (.raw .vnull) = some msg →
      hasSubstr listLikeMsg.toList msg.toList = true →
      classSetResult env o.klass k (.rlist []) = none →
      populate_fields env (m + 2) s (some ref) ((k, .vnull) :: rest) =
        populate_fields env (m + 1)
          { s with heap := s.heap.set ref { o with attrs := setEntry o.attrs k (.rlist []) } }
          (some ref) rest) ∧
    (∀ (env : Env) (m : Nat) (s s1 s2 : Engine) (ref : Nat) (o2 : NovaObject)
       (k msg : String) (v : SValue) (sv sv2 : RValue) (rest : List (String × SValue)),
      desimplify env (m + 1) s v = .ok sv s1 →
      sv ≠ .raw .vnull →
      desimplify env m s1 v = .ok sv2 s2 →
      s2.heap[ref]? = some o2 →
      classSetResult env o2.klass k sv2 = some msg →
      hasSubstr listLikeMsg.toList msg.toList = false →
      populate_fields env (m + 2) s (some ref) ((k, v) :: rest) =
        populate_fields env (m + 1) s2 (some ref) rest) := by
  constructor
  · intro env m s ref o k msg rest ho hset hsub hok
    have hsub2 : hasSubstr listLikeMsg.data msg.data = true := hsub
    simp [populate_fields, populate_attempt, desimplify, is_dict_and_has_key, applyModelFk,
      modelSetattr, errToStr, ho, hset, hsub, hsub2, hok]
  · intro env m s s1 s2 ref o2 k msg v sv sv2 rest hd1 hnn hd2 ho2 hset hsub
    simp only [populate_fields, hd1]
    have hsub2 : hasSubstr listLikeMsg.data msg.data = false := hsub
    cases sv with
    | raw w =>
      cases w
      case vnull => exact absurd rfl hnn
      all_goals simp [populate_attempt, hd2, modelSetattr, ho2, hset, errToStr, hsub, hsub2]
    | rlist xs => simp [populate_attempt, hd2, modelSetattr, ho2, hset, errToStr, hsub, hsub2]
    | rdatetime a b => simp [populate_attempt, hd2, modelSetattr, ho2, hset, errToStr, hsub, hsub2]
    | ripnetwork a => simp [populate_attempt, hd2, modelSetattr, ho2, hset, errToStr, hsub, hsub2]
    | rmodel r => simp [populate_attempt, hd2, modelSetattr, ho2, hset, errToStr, hsub, hsub2]

/-- A model class with a sequence-typed field `items` (assigning `None`
raises the "None is not list-like" error) and a field `bad` whose
assignment always raises an unrelated error. -/
def seqClass : ModelClass :=
  { name := "S"
    setResult := fun k v =>
      if k == "items" then
        match v with
        | .raw .vnull => some "None is not list-like"
        | _ => none
      else if k == "bad" then some "boom"
      else none
    hasUserId := false
    hasProjectId := false }

/-- Registry for the sequence-field scenario. -/
def envSeq : Env :=
  { registry := fun n => if n == "S" then some seqClass else none
    tableToClass := fun _ => none
    store := fun _ _ => none }

/-- An engine whose heap holds one empty `S` instance. -/
def seqEngine : Engine :=
  { cache := [], heap := [{ klass := "S", attrs := [], fkCount := 0 }], fetchCount := 0 }

/-- C6 witness: a null `items` field is coerced to the empty sequence and
population continues; a failing `bad` field is suppressed and population
continues. -/
theorem C6_assignment_failure_policy_witness :
    (populate_fields envSeq 5 seqEngine (some 0) [("items", .vnull)] =
      populate_fields envSeq 4
        { seqEngine with
          heap := seqEngine.heap.set 0
            { klass := "S", attrs := setEntry [] "items" (.rlist []), fkCount := 0 } }
        (some 0) []) ∧
    (populate_fields envSeq 5 seqEngine (some 0) [("bad", .vint 1)] =
      populate_fields envSeq 4 seqEngine (some 0) []) :=
  ⟨C6_assignment_failure_policy.1 envSeq 3 seqEngine 0
      { klass := "S", attrs := [], fkCount := 0 } "items" "None is not list-like" []
      rfl rfl rfl rfl,
   C6_assignment_failure_policy.2 envSeq 3 seqEngine seqEngine seqEngine 0
      { klass := "S", attrs := [], fkCount := 0 } "bad" "boom" (.vint 1)
      (.raw (.vint 1)) (.raw (.vint 1)) [] rfl (by simp) rfl rfl rfl rfl⟩

/-- Store with a well-formed record for `(ts, 7)`. -/
def envLazyGood : Env :=
  { demoEnv with
    store := fun b k =>
      if b == "ts" && k == "7" then
        some (.vdict 10 [("novabase_classname", .vstr "X"), ("id", .vint 7)])
      else none }

/-- C8 amended: when a resolution of a `LazyReference` completes
successfully, the resolved object is memoized, and every later resolution
returns the memoized instance with the state unchanged — in particular no
further store fetch.  (A resolution that raises before memoizing does not
count: a later call fetches again, see the counterexample.) -/
theorem C8_amended (env : Env) (fuel fuel2 : Nat) (ls ls1 : LazyState) (l : LazyRef) (r : Nat)
    (h : lazy_get_complex_ref env fuel ls l = .ok r ls1) :
    lazy_get_complex_ref env fuel2 ls1 l = .ok r ls1 := by
  have hkey : lookupStr ls1.lcache (lazy_get_key env l) = some r := by
    simp only [lazy_get_complex_ref] at h
    split at h
    next heq => injection h with h1 h2; subst h1; subst h2; exact heq
    next =>
      split at h
      · cases h
      · cases h
      · split at h
        next heq => injection h with h1 h2; subst h1; subst h2; exact heq
        next => cases h
  simp only [lazy_get_complex_ref, hkey]

/-- C8 amended witness: the resolved state after one successful call. -/
def lsResolved : LazyState :=
  { lcache := [("X_7", 0)]
    eng := { cache := []
             heap := [{ klass := "X"
                        attrs := [("novabase_classname", .raw (.vstr "X")),
                                  ("id", .raw (.vint 7))]
                        fkCount := 1 }]
             fetchCount := 1 } }

theorem C8_amended_witness :
    lazy_get_complex_ref envLazyGood 20 lsResolved { base := "ts", id := "7" } =
      .ok 0 lsResolved ∧ lsResolved.eng.fetchCount = 1 :=
  ⟨C8_amended envLazyGood 20 20 initLazyState lsResolved { base := "ts", id := "7" } 0 rfl,
   rfl⟩

/-! ## Cache preservation: an identity-cache entry, once written, is never
changed or removed by any later engine operation. -/

/-- Every cache entry of `s` is still present, with the same value, in
`s2`. -/
def cacheKeeps (s s2 : Engine) : Prop :=
  ∀ k cv, lookupStr s.cache k = some cv → lookupStr s2.cache k = some cv

/-- The final state of an outcome keeps all cache entries of `s`. -/
def resKeeps {α : Type} (s : Engine) : PRes Engine α → Prop
  | .ok _ s2 => cacheKeeps s s2
  | .err _ s2 => cacheKeeps s s2
  | .fuel => True

theorem cacheKeeps_refl (s : Engine) : cacheKeeps s s := fun _ _ h => h

theorem cacheKeeps_trans {s t u : Engine} (h1 : cacheKeeps s t) (h2 : cacheKeeps t u) :
    cacheKeeps s u := fun k cv h => h2 k cv (h1 k cv h)

theorem cacheKeeps_of_cache_eq {s s2 : Engine} (h : s2.cache = s.cache) :
    cacheKeeps s s2 := fun k cv hk => by rw [h]; exact hk

theorem isSome_false_eq_none {α : Type} {o : Option α} (h : ¬ o.isSome = true) : o = none := by
  cases o with
  | none => rfl
  | some v => simp at h

/-- Writing an absent key preserves every present entry. -/
theorem lookupStr_setEntry_keep {α : Type} (l : List (String × α)) (k2 k : String) (v : α)
    (hmiss : lookupStr l k2 = none) (cv : α) (hk : lookupStr l k = some cv) :
    lookupStr (setEntry l k2 v) k = some cv := by
  induction l with
  | nil => simp [lookupStr] at hk
  | cons p rest ih =>
    obtain ⟨k1, v1⟩ := p
    by_cases h12 : (k1 == k2) = true
    · simp [lookupStr, h12] at hmiss
    · simp only [Bool.not_eq_true] at h12
      simp only [lookupStr, h12, Bool.false_eq_true, if_false] at hmiss
      simp only [setEntry, h12, Bool.false_eq_true, if_false]
      by_cases h1k : (k1 == k) = true
      · simpa [lookupStr, h1k] using hk
      · simp only [Bool.not_eq_true] at h1k
        simp only [lookupStr, h1k, Bool.false_eq_true, if_false] at hk ⊢
        exact ih hmiss hk

theorem modelSetattr_cache {env : Env} {s s2 : Engine} {mref : Option Nat} {k : String}
    {v : RValue} (h : modelSetattr env s mref k v = .ok s2) : s2.cache = s.cache := by
  unfold modelSetattr at h
  split at h
  · cases h
  · split at h
    · cases h
    · split at h
      · cases h
      · injection h with h1; subst h1; rfl

theorem bumpFk_cache (s : Engine) (r : Nat) : (bumpFk s r).cache = s.cache := by
  unfold bumpFk; split <;> rfl

theorem applyModelFk_keeps {s : Engine} {r : PRes Engine RValue} (h : resKeeps s r) :
    resKeeps s (applyModelFk r) := by
  unfold applyModelFk
  split
  next ref s2 => exact cacheKeeps_trans h (cacheKeeps_of_cache_eq (bumpFk_cache _ _))
  next => exact h

theorem liftE_keeps (e : Except PyErr RValue) (s : Engine) : resKeeps s (liftE e s) := by
  unfold liftE; split <;> exact cacheKeeps_refl s

theorem spawn_with_keeps (env : Env) (s : Engine) (obj : SValue) (mcn? : Option SValue) :
    resKeeps s (spawn_with_classname env s obj mcn?) := by
  simp only [spawn_with_classname]
  split
  · exact cacheKeeps_refl s
  · exact cacheKeeps_refl s
  · split
    · exact cacheKeeps_refl s
    · split
      · exact cacheKeeps_refl s
      · next key heq =>
        by_cases hc : (lookupStr s.cache key).isSome = true
        · rw [if_pos hc]
          split
          · exact cacheKeeps_of_cache_eq rfl
          · exact cacheKeeps_of_cache_eq rfl
        · rw [if_neg hc]
          split
          · exact fun k cv hk =>
              lookupStr_setEntry_keep _ _ _ _ (isSome_false_eq_none hc) cv hk
          · exact fun k cv hk =>
              lookupStr_setEntry_keep _ _ _ _ (isSome_false_eq_none hc) cv hk

theorem spawn_keeps (env : Env) (s : Engine) (obj : SValue) :
    resKeeps s (spawn_empty_model env s obj) := by
  unfold spawn_empty_model
  split
  · exact cacheKeeps_refl s
  · exact spawn_with_keeps env s obj _
  · split
    · exact cacheKeeps_refl s
    · exact spawn_with_keeps env s obj _
    · exact cacheKeeps_refl s

/-- A newly written key never shadows a different key. -/
theorem lookupStr_setEntry_ne {α : Type} (l : List (String × α)) (k2 k : String) (v : α)
    (hne : (k2 == k) = false) : lookupStr (setEntry l k2 v) k = lookupStr l k := by
  induction l with
  | nil => simp [setEntry, lookupStr, hne]
  | cons p rest ih =>
    obtain ⟨k1, v1⟩ := p
    by_cases h12 : (k1 == k2) = true
    · have h1k : (k1 == k) = false := by
        have hk12 : k1 = k2 := by simpa using h12
        subst hk12
        exact hne
      simp [setEntry, h12, lookupStr, h1k]
    · simp only [Bool.not_eq_true] at h12
      by_cases h1k : (k1 == k) = true
      · simp [setEntry, h12, lookupStr, h1k]
      · simp only [Bool.not_eq_true] at h1k
        simp [setEntry, h12, lookupStr, h1k, ih]

/-- Composition of preservation through a later computation. -/
theorem resKeeps_mono {α : Type} {s t : Engine} {r : PRes Engine α}
    (h1 : cacheKeeps s t) (h2 : resKeeps t r) : resKeeps s r := by
  cases r with
  | ok a s2 => exact cacheKeeps_trans h1 h2
  | err e s2 => exact cacheKeeps_trans h1 h2
  | fuel => trivial

/-- The `user_id` / `project_id` special-case step keeps the cache. -/
theorem ownership_step_cache {env : Env} {s1 s2 : Engine} {mref : Option Nat}
    {name : String} {cond : Bool} {vv : Option SValue}
    (h : (if cond then
            match vv with
            | some v => modelSetattr env s1 mref name (.raw v)
            | none => .ok s1
          else .ok s1 : Except PyErr Engine) = .ok s2) : s2.cache = s1.cache := by
  split at h
  · split at h
    · exact modelSetattr_cache h
    · injection h with h1; subst h1; rfl
  · injection h with h1; subst h1; rfl

theorem callFk_cache {s s4 : Engine} {mref : Option Nat}
    (h : callFk s mref = .ok s4) : s4.cache = s.cache := by
  unfold callFk at h
  split at h
  · cases h
  · injection h with h1; subst h1; exact bumpFk_cache _ _

/-- No engine operation ever changes or removes an existing identity-cache
entry: the cache only grows, and only at keys that were absent. -/
theorem engine_cache_grows :
    ∀ n : Nat,
      (∀ env s obj, resKeeps s (desimplify env n s obj)) ∧
      (∀ env s xs, resKeeps s (desimplify_list env n s xs)) ∧
      (∀ env s obj, resKeeps s (novabase_desimplify env n s obj)) ∧
      (∀ env s obj, resKeeps s (update_nova_model env n s obj)) ∧
      (∀ env s mref obj, resKeeps s (update_nova_model_body env n s mref obj)) ∧
      (∀ env s mref fs, resKeeps s (populate_fields env n s mref fs)) ∧
      (∀ env s1 mref k v sv, resKeeps s1 (populate_attempt env n s1 mref k v sv)) := by
  intro n
  induction n with
  | zero =>
    exact ⟨fun env s obj => trivial, fun env s xs => trivial, fun env s obj => trivial,
      fun env s obj => trivial, fun env s mref obj => trivial, fun env s mref fs => trivial,
      fun env s1 mref k v sv => trivial⟩
  | succ m ih =>
    obtain ⟨ihD, ihL, ihN, ihU, ihB, ihP, ihA⟩ := ih
    refine ⟨?_, ?_, ?_, ?_, ?_, ?_, ?_⟩
    · -- desimplify
      intro env s obj
      simp only [desimplify]
      apply applyModelFk_keeps
      split
      · split
        · exact liftE_keeps _ _
        · exact liftE_keeps _ _
        · exact ihN env s obj
        · exact cacheKeeps_refl s
      · split
        · next xs hcond =>
          split
          · next rs s1 heq => have h := ihL env s xs; rw [heq] at h; exact h
          · next e s1 heq => have h := ihL env s xs; rw [heq] at h; exact h
          · trivial
        · split
          · exact ihN env s obj
          · split
            · exact ihN env s obj
            · exact cacheKeeps_refl s
    · -- desimplify_list
      intro env s xs
      simp only [desimplify_list]
      split
      · exact cacheKeeps_refl s
      · next x rest =>
        split
        · trivial
        · next e s1 heq => have h := ihD env s x; rw [heq] at h; exact h
        · next r s1 heq =>
          have h1 : cacheKeeps s s1 := by have h := ihD env s x; rw [heq] at h; exact h
          split
          · trivial
          · next e s2 heq2 =>
            have h2 := ihL env s1 rest; rw [heq2] at h2
            exact cacheKeeps_trans h1 h2
          · next rs s2 heq2 =>
            have h2 := ihL env s1 rest; rw [heq2] at h2
            exact cacheKeeps_trans h1 h2
    · -- novabase_desimplify
      intro env s obj
      simp only [novabase_desimplify]
      split
      · exact cacheKeeps_refl s
      · next key hkey =>
        split
        · exact cacheKeeps_refl s
        · next hmiss =>
          split
          · trivial
          · next e s1 heqS =>
            have h := spawn_keeps env s obj; rw [heqS] at h; exact h
          · next spawned s1 heqS =>
            have hs1 : cacheKeeps s s1 := by
              have h := spawn_keeps env s obj; rw [heqS] at h; exact h
            have hs2 : cacheKeeps s
                { s1 with cache := setEntry s1.cache key spawned } := by
              intro k cv hk
              have hne : (key == k) = false := by
                rcases eq_or_ne key k with hek | hek
                · subst hek; rw [hmiss] at hk; cases hk
                · exact beq_eq_false_iff_ne.mpr hek
              show lookupStr (setEntry s1.cache key spawned) k = some cv
              rw [lookupStr_setEntry_ne _ _ _ _ hne]
              exact hs1 k cv hk
            split
            · trivial
            · next e s3 hequ =>
              have h := ihU env { s1 with cache := setEntry s1.cache key spawned } obj
              rw [hequ] at h
              exact cacheKeeps_trans hs2 h
            · next u s3 hequ =>
              have h := ihU env { s1 with cache := setEntry s1.cache key spawned } obj
              rw [hequ] at h
              have h3 : cacheKeeps s s3 := cacheKeeps_trans hs2 h
              split
              · exact h3
              · exact h3
    · -- update_nova_model
      intro env s obj
      simp only [update_nova_model]
      split
      · exact cacheKeeps_refl s
      · split
        · exact cacheKeeps_refl s
        · split
          · exact cacheKeeps_refl s
          · split
            · exact cacheKeeps_refl s
            · split
              · exact cacheKeeps_refl s
              · exact resKeeps_mono (cacheKeeps_of_cache_eq rfl) (ihB env _ _ _)
          · exact ihB env s _ obj
    · -- update_nova_model_body
      intro env s mref obj
      simp only [update_nova_model_body]
      split
      · next a fs =>
        split
        · trivial
        · next e s1 heqP => have h := ihP env s mref fs; rw [heqP] at h; exact h
        · next u s1 heqP =>
          have hs1 : cacheKeeps s s1 := by
            have h := ihP env s mref fs; rw [heqP] at h; exact h
          split
          · next e hequ => exact hs1
          · next s2 hequ =>
            have hs2 : cacheKeeps s s2 :=
              cacheKeeps_trans hs1 (cacheKeeps_of_cache_eq (ownership_step_cache hequ))
            split
            · next e heqp => exact hs2
            · next s3 heqp =>
              have hs3 : cacheKeeps s s3 :=
                cacheKeeps_trans hs2 (cacheKeeps_of_cache_eq (ownership_step_cache heqp))
              split
              · next e heqf => exact hs3
              · next s4 heqf =>
                exact cacheKeeps_trans hs3 (cacheKeeps_of_cache_eq (callFk_cache heqf))
      · exact cacheKeeps_refl s
    · -- populate_fields
      intro env s mref fs
      simp only [populate_fields]
      split
      · exact cacheKeeps_refl s
      · next k v rest =>
        split
        · trivial
        · next e s1 heq => have h := ihD env s v; rw [heq] at h; exact h
        · next sv s1 heq =>
          have hs1 : cacheKeeps s s1 := by
            have h := ihD env s v; rw [heq] at h; exact h
          split
          · trivial
          · next u s2 heqA =>
            have hs2 : cacheKeeps s s2 := by
              have h := ihA env s1 mref k v sv; rw [heqA] at h
              exact cacheKeeps_trans hs1 h
            exact resKeeps_mono hs2 (ihP env s2 mref rest)
          · next e s2 heqA =>
            have hs2 : cacheKeeps s s2 := by
              have h := ihA env s1 mref k v sv; rw [heqA] at h
              exact cacheKeeps_trans hs1 h
            split
            · split
              · next s3 heqM =>
                exact resKeeps_mono
                  (cacheKeeps_trans hs2 (cacheKeeps_of_cache_eq (modelSetattr_cache heqM)))
                  (ihP env s3 mref rest)
              · next e2 heqM => exact hs2
            · exact resKeeps_mono hs2 (ihP env s2 mref rest)
    · -- populate_attempt
      intro env s1 mref k v sv
      simp only [populate_attempt]
      split
      · split
        · next s2 heqM => exact cacheKeeps_of_cache_eq (modelSetattr_cache heqM)
        · next e heqM => exact cacheKeeps_refl s1
      · split
        · trivial
        · next e s2 heq => have h := ihD env s1 v; rw [heq] at h; exact h
        · next sv2 s2 heq =>
          have hs2 : cacheKeeps s1 s2 := by
            have h := ihD env s1 v; rw [heq] at h; exact h
          split
          · next s3 heqM =>
            exact cacheKeeps_trans hs2 (cacheKeeps_of_cache_eq (modelSetattr_cache heqM))
          · next e2 heqM => exact hs2

/-- A successful `novabase_desimplify` leaves its key in the cache and
returns exactly the cached value (`return self.cache[key]`). -/
theorem novabase_ok_cached {env : Env} {n : Nat} {s s2 : Engine} {obj : SValue} {k : String}
    {r : RValue} (hk : get_key obj = .ok k)
    (h : novabase_desimplify env n s obj = .ok r s2) :
    ∃ cv, lookupStr s2.cache k = some cv ∧ r = renderCached cv := by
  cases n with
  | zero => simp only [novabase_desimplify] at h; cases h
  | succ m =>
    simp only [novabase_desimplify, hk] at h
    split at h
    · next cv hcv =>
      injection h with h1 h2
      subst h2
      exact ⟨cv, hcv, h1.symm⟩
    · next hmiss =>
      split at h
      · cases h
      · cases h
      · next spawned s1 heqS =>
        split at h
        · cases h
        · cases h
        · next u s3 hequ =>
          split at h
          · next cv hcv =>
            injection h with h1 h2
            subst h2
            exact ⟨cv, hcv, h1.symm⟩
          · cases h

/-- C1 amended: the identity key the cache actually uses is the
`(tablename, id)` pair (mappings without a `tablename` are keyed by dict
address and are never shared).  Within one engine instance, two tagged
mappings with the same key — wherever they occur in the graph, with
arbitrary desimplification work in between — rehydrate to the same result:
the second rehydration returns the cached value of the first and leaves
the state untouched (no re-population, no re-fetch). -/
theorem C1_amended (env : Env) (n1 n2 n3 : Nat) (s s1 s2 s3 : Engine)
    (obj1 obj2 mid : SValue) (k : String) (r1 rv r2 : RValue)
    (hk1 : get_key obj1 = .ok k) (hk2 : get_key obj2 = .ok k)
    (h1 : novabase_desimplify env n1 s obj1 = .ok r1 s1)
    (hmid : desimplify env n2 s1 mid = .ok rv s2)
    (h2 : novabase_desimplify env n3 s2 obj2 = .ok r2 s3) :
    r2 = r1 ∧ s3 = s2 := by
  obtain ⟨cv, hcv, hr1⟩ := novabase_ok_cached hk1 h1
  have hcv2 : lookupStr s2.cache k = some cv := by
    have hkeep := (engine_cache_grows n2).1 env s1 mid
    rw [hmid] at hkeep
    exact hkeep k cv hcv
  cases n3 with
  | zero => simp only [novabase_desimplify] at h2; cases h2
  | succ m3 =>
    simp only [novabase_desimplify, hk2, hcv2] at h2
    injection h2 with ha hb
    exact ⟨ha.symm.trans hr1.symm, hb.symm⟩

/-- The engine state after rehydrating the first witness mapping. -/
def c1state : Engine :=
  { cache := [("ts-7", some 0)]
    heap := [{ klass := "X"
               attrs := [("tablename", .raw (.vstr "ts")), ("id", .raw (.vint 7)),
                         ("novabase_classname", .raw (.vstr "X"))]
               fkCount := 1 }]
    fetchCount := 0 }

/-- C1 amended witness: two distinct mappings with tablename `ts` and id
`7`, separated by unrelated desimplification work, yield the same
instance and leave the state unchanged on the second encounter. -/
theorem C1_amended_witness : RValue.rmodel 0 = RValue.rmodel 0 ∧ c1state = c1state :=
  C1_amended demoEnv 20 5 20 initEngine c1state c1state c1state
    (.vdict 41 [("tablename", .vstr "ts"), ("id", .vint 7), ("novabase_classname", .vstr "X")])
    (.vdict 42 [("tablename", .vstr "ts"), ("id", .vint 7), ("novabase_classname", .vstr "X")])
    (.vint 5) "ts-7" (.rmodel 0) (.raw (.vint 5)) (.rmodel 0)
    rfl rfl rfl rfl rfl
